import Mathlib

/-!
Shallow embedding of the dolt `remotesrv` HTTP file-transfer server:
the request dispatcher `ServeHTTP`, the upload path `writeTableFile` /
`writeLocal`, the range parser `offsetAndLenFromRange`, and the read
paths `readFile`, `readChunk`, `readLocalRange`.

The local filesystem is modelled as a map from path strings to file
contents; `os.Stat`, `os.Open` + read, and `os.WriteFile` become lookups
and updates of that map, with the nondeterministic resource failures of
open / seek / write surfaced as explicit boolean fault flags.  The body
of an upload request is modelled as the byte list that `io.ReadAll`
returned together with a flag recording whether it returned an error
(in which case the list is the truncated prefix read so far, exactly as
`io.ReadAll` behaves).
-/

namespace RemoteSrv

/-- Bytes are modelled as lists of naturals, each the value of one byte. -/
abbrev Bytes := List Nat

/-- The local filesystem: a map from paths to file contents. -/
abbrev FS := String → Option Bytes

def statusOK : Int := 200

def statusBadRequest : Int := 400

def statusNotFound : Int := 404

def statusMethodNotAllowed : Int := 405

def statusInternalServerError : Int := 500

/-- The sentinel status `-1` used by the source: the response body has
already been streamed, so no status header is to be written
(`if statusCode != -1 { respWr.WriteHeader(statusCode) }`). -/
def noStatus : Int := -1

/-- Go `strings.Split(s, sep)` for a one-character separator, computed on
the character list.  Splitting the empty list yields one empty token,
as in Go. -/
def splitOnSep (sep : Char) : List Char → List (List Char)
  | [] => [[]]
  | c :: rest =>
    let r := splitOnSep sep rest
    if c = sep then [] :: r
    else
      match r with
      | [] => [[c]]
      | t :: ts => (c :: t) :: ts

/-- Go `strings.Split(s, sep)` for a one-character separator. -/
def goSplit (s : String) (sep : Char) : List String :=
  (splitOnSep sep s.data).map List.asString

/-- Go `strings.TrimLeft(path, "/")`: drop every leading slash. -/
def trimLeftSlashes (s : String) : String :=
  (s.data.dropWhile (fun c => c == '/')).asString

/-- Go `strings.HasPrefix`. -/
def goStartsWith (s pre : String) : Bool :=
  s.data.take pre.data.length == pre.data

/-- Go `strings.TrimSpace`, modelled on ASCII whitespace. -/
def goTrim (s : String) : String :=
  ((s.data.dropWhile Char.isWhitespace).reverse.dropWhile Char.isWhitespace).reverse.asString

/-- 2 ^ 64, the modulus of Go `uint64` arithmetic. -/
def uint64Bound : Nat := 18446744073709551616

/-- 2 ^ 63, the first `uint64` value that is negative as an `int64`. -/
def int64Bound : Nat := 9223372036854775808

/-- Value of a decimal digit string. -/
def digitsToNat (cs : List Char) : Nat :=
  cs.foldl (fun a c => a * 10 + (c.toNat - 48)) 0

/-- Go `strconv.ParseUint(s, 10, 64)`: nonempty, decimal digits only,
value below 2 ^ 64; a malformed or out-of-range string is an error,
modelled as `none`. -/
def parseUint64 (s : String) : Option Nat :=
  if s.data.isEmpty then none
  else if s.data.all Char.isDigit then
    let n := digitsToNat s.data
    if n < uint64Bound then some n else none
  else none

/-- Reinterpretation of a `uint64` value as a Go `int64` (two's
complement). -/
def toInt64 (n : Nat) : Int :=
  if n % uint64Bound < int64Bound then ((n % uint64Bound : Nat) : Int)
  else ((n % uint64Bound : Nat) : Int) - (uint64Bound : Int)

/-- Go `int64` arithmetic on an unbounded integer: two's-complement
wraparound into the int64 range, as in the source's
`int64(offset+length)`. -/
def wrapInt64 (n : Int) : Int :=
  (n + (int64Bound : Int)) % (uint64Bound : Int) - (int64Bound : Int)

/-- `offsetAndLenFromRange` from the source.  Empty input is the
"no range requested" sentinel `(-1, -1)` with no error.  After the
`bytes=` prefix the rest is split on `-` into exactly two tokens, each
trimmed and parsed as `uint64`.  The result is
`(int64(start), int64(end-start) + 1)` where `end-start` is computed in
wrapping `uint64` arithmetic and then reinterpreted as `int64`, exactly
as the Go source does; there is no check that `end >= start`. -/
def offsetAndLenFromRange (rngStr : String) : Except String (Int × Int) :=
  if rngStr = "" then .ok (-1, -1)
  else if !goStartsWith rngStr "bytes=" then
    .error "range string does not start with bytes="
  else
    let tokens := goSplit ((rngStr.data.drop 6).asString) '-'
    if tokens.length ≠ 2 then .error "invalid range format. should be bytes=#-#"
    else
      match parseUint64 (goTrim (tokens.getD 0 "")) with
      | none => .error "invalid offset is not a number. should be bytes=#-#"
      | some s =>
        match parseUint64 (goTrim (tokens.getD 1 "")) with
        | none => .error "invalid length is not a number. should be bytes=#-#"
        | some e => .ok (toInt64 s, toInt64 ((e + uint64Bound - s) % uint64Bound) + 1)

/-- One step of Go `filepath.Clean` on a relative path, processed segment
by segment with the cleaned prefix kept in reverse.  Empty and `.`
segments vanish; a `..` segment pops the previous segment unless the
prefix is empty or itself ends in `..`, in which case the `..` is
kept. -/
def cleanStep (acc : List String) (s : String) : List String :=
  if s = "" ∨ s = "." then acc
  else if s = ".." then
    match acc with
    | [] => [".."]
    | a :: rest => if a = ".." then ".." :: a :: rest else rest
  else s :: acc

/-- Go `filepath.Clean` of a relative path given as its slash-free
segments. -/
def cleanSegs (parts : List String) : List String :=
  (parts.foldl cleanStep []).reverse

/-- Go `filepath.Join` of slash-free segments: join the non-empty ones
with `/` and clean the result.  All-empty input gives the empty string;
a fully cancelled path gives `.`. -/
def filepathJoin (parts : List String) : String :=
  if (parts.filter (fun s => !(s == ""))).isEmpty then ""
  else
    match cleanSegs parts with
    | [] => "."
    | seg :: segs => segs.foldl (fun acc t => acc ++ "/" ++ t) seg

/-- The storage path used by `writeLocal`, `readFile` and
`readLocalRange`: `filepath.Join(org, repo, fileId)`, with no
sanitization of the segments. -/
def resolvePath (org repo fileId : String) : String :=
  filepathJoin [org, repo, fileId]

/-- A cleaned relative storage path escapes the store root directory iff
its first remaining segment is `..`. -/
def escapesRoot (org repo fileId : String) : Bool :=
  (cleanSegs [org, repo, fileId]).head? == some ".."

/-- Modelled from the spec: `hash.MaybeParse` (package `go/store/hash`)
is not among the sources; the spec describes a Hash as a fixed-width
content identifier that must parse from its textual representation.
Modelled as the dolt hash text form: exactly 32 characters, each a
decimal digit or a lowercase letter between `a` and `v`. -/
def hashMaybeParse (s : String) : Bool :=
  s.data.length == 32 && s.data.all (fun c => c.isDigit || ('a' ≤ c && c ≤ 'v'))

/-- `remotesapi.TableFileDetails`: the manifest consulted by the upload
admission gate.  Zero `contentLength` and empty `contentHash` mean
"unchecked". -/
structure TableFileDetails where
  contentLength : Nat
  contentHash : Bytes
deriving DecidableEq

/-- The process-wide `expectedFiles` admission registry, keyed by the
fileID string. -/
abbrev Registry := String → Option TableFileDetails

/-- Point update of the filesystem map, the effect of a successful
`os.WriteFile`. -/
def fsUpdate (fs : FS) (path : String) (data : Bytes) : FS :=
  fun p => if p = path then some data else fs p

/-- `writeLocal` from the source: resolve the storage path and write the
whole body there with `os.WriteFile`.  The boolean result is `true` when
the write succeeded (`err == nil`); the `writeErr` flag models an
`os.WriteFile` failure, which leaves the map unchanged. -/
def writeLocal (fs : FS) (org repo fileId : String) (data : Bytes)
    (writeErr : Bool) : FS × Bool :=
  let path := resolvePath org repo fileId
  if writeErr then (fs, false) else (fsUpdate fs path data, true)

/-- `writeTableFile` from the source, returning the status code together
with the filesystem after the call.  The checks run in source order:
hash parse, registry lookup, then over the bytes that `io.ReadAll`
returned (`body`, a truncated prefix when `readErr` is set): content
length, content hash (`md5.Sum`, passed in as `md5Sum` since the
checksum function is Go standard library), and only then the `ReadAll`
error, before `writeLocal` persists the body. -/
def writeTableFile (md5Sum : Bytes → Bytes) (registry : Registry) (fs : FS)
    (org repo fileId : String) (body : Bytes)
    (readErr writeErr : Bool) : Int × FS :=
  if hashMaybeParse fileId = false then (statusBadRequest, fs)
  else
    match registry fileId with
    | none => (statusBadRequest, fs)
    | some tfd =>
      if tfd.contentLength ≠ 0 ∧ tfd.contentLength ≠ body.length then
        (statusBadRequest, fs)
      else if tfd.contentHash.length > 0 ∧ tfd.contentHash ≠ md5Sum body then
        (statusBadRequest, fs)
      else if readErr then (statusInternalServerError, fs)
      else
        let res := writeLocal fs org repo fileId body writeErr
        if res.2 then (statusOK, res.1) else (statusInternalServerError, res.1)

/-- `readFile` from the source: stat the resolved path (`none` in the map
is a failed stat, hence not-found), open it (`openErr` models an
`os.Open` failure after a successful stat), then `io.Copy` the whole
contents to the response writer and return the `-1` sentinel.  The
second component is the bytes written to the response. -/
def readFile (fs : FS) (openErr : Bool) (org repo fileId : String) : Int × Bytes :=
  let path := resolvePath org repo fileId
  match fs path with
  | none => (statusNotFound, [])
  | some data =>
    if openErr then (statusInternalServerError, [])
    else (noStatus, data)

/-- `readLocalRange` from the source: stat the resolved path, reject the
range with bad-request when `size < int64(offset+length)` before
opening the file — the sum is computed in wrapping `int64` arithmetic,
so an overflowing sum can slip past the check — then open, seek to
`offset` (a successful seek returns position `offset`, so the source's
`diff` is zero) and read exactly `length` bytes.  `iohelp.ReadNBytes`
is not among the sources; modelled from the spec: return exactly the
requested number of bytes or fail, here a short read (requested bytes
extend past what is available) is an error. -/
def readLocalRange (fs : FS) (openErr seekErr : Bool) (org repo fileId : String)
    (offset length : Int) : Bytes × Int :=
  let path := resolvePath org repo fileId
  match fs path with
  | none => ([], statusNotFound)
  | some data =>
    if (data.length : Int) < wrapInt64 (offset + length) then ([], statusBadRequest)
    else if openErr then ([], statusInternalServerError)
    else if seekErr then ([], statusInternalServerError)
    else
      let chunk := (data.drop offset.toNat).take length.toNat
      if (chunk.length : Int) < length then ([], statusInternalServerError)
      else (chunk, noStatus)

/-- `readChunk` from the source: parse the `Range` header (parse failure
is bad-request), delegate to `readLocalRange`, and when that yields the
`-1` sentinel write the returned bytes to the response
(`iohelp.WriteAll`, not among the sources; modelled from the spec:
writes the whole buffer).  The second component is the bytes written to
the response. -/
def readChunk (fs : FS) (openErr seekErr : Bool)
    (org repo fileId rngStr : String) : Int × Bytes :=
  match offsetAndLenFromRange rngStr with
  | .error _ => (statusBadRequest, [])
  | .ok (offset, length) =>
    let res := readLocalRange fs openErr seekErr org repo fileId offset length
    if res.2 ≠ noStatus then (res.2, [])
    else (noStatus, res.1)

/-- An inbound HTTP request as the handler sees it: method, URL path,
`Range` header (empty when absent), and the upload body as returned by
`io.ReadAll` together with the flag recording whether `ReadAll`
errored. -/
structure Request where
  method : String
  urlPath : String
  rangeHeader : String
  body : Bytes
  bodyReadErr : Bool

/-- Terminal observation of one `ServeHTTP` call: either the handler
panicked (indexing `tokens[2]` with fewer than three tokens), or it ran
to completion.  `headersWritten` is the sequence of status codes passed
to `WriteHeader`, in order; `bodyBytes` the response body bytes; `fs`
the filesystem afterwards. -/
inductive HResult where
  | panicked (headersWritten : List Int)
  | completed (headersWritten : List Int) (bodyBytes : Bytes) (fs : FS)

/-- `ServeHTTP` from the source.  The path is left-trimmed of slashes and
split on `/`; when the token count differs from three the source writes
a not-found header but does not return, so it goes on to index
`tokens[0..2]` — a panic when there are fewer than three tokens, and
normal method dispatch (after the not-found header) otherwise.  Method
dispatch: GET without `Range` → `readFile`; GET with `Range` →
`readChunk`; POST or PUT → `writeTableFile`; anything else keeps the
initial `statusCode` of method-not-allowed.  Finally the status is
written unless it is the `-1` sentinel. -/
def ServeHTTP (md5Sum : Bytes → Bytes) (registry : Registry) (fs : FS)
    (openErr seekErr writeErr : Bool) (req : Request) : HResult :=
  let tokens := goSplit (trimLeftSlashes req.urlPath) '/'
  let preHeaders : List Int := if tokens.length ≠ 3 then [statusNotFound] else []
  if tokens.length < 3 then .panicked preHeaders
  else
    let org := tokens.getD 0 ""
    let repo := tokens.getD 1 ""
    let hashStr := tokens.getD 2 ""
    let step : Int × Bytes × FS :=
      if req.method = "GET" then
        if req.rangeHeader = "" then
          let r := readFile fs openErr org repo hashStr
          (r.1, r.2, fs)
        else
          let r := readChunk fs openErr seekErr org repo hashStr req.rangeHeader
          (r.1, r.2, fs)
      else if req.method = "POST" ∨ req.method = "PUT" then
        let r := writeTableFile md5Sum registry fs org repo hashStr req.body
          req.bodyReadErr writeErr
        (r.1, [], r.2)
      else (statusMethodNotAllowed, [], fs)
    .completed (preHeaders ++ (if step.1 ≠ noStatus then [step.1] else []))
      step.2.1 step.2.2

/-! Concrete fixtures used by witnesses and counterexamples. -/

/-- A stand-in for the `crypto/md5` checksum (Go standard library, outside
the sources); the control flow of `writeTableFile` depends only on
equality of its result with the registered hash, so the theorems
quantify over the checksum function and the fixtures pick this one. -/
def md5c : Bytes → Bytes := fun b => [b.length]

/-- A textual hash accepted by `hashMaybeParse` (32 zeros). -/
def h32 : String := "00000000000000000000000000000000"

/-- The empty filesystem. -/
def fsEmpty : FS := fun _ => none

/-- A filesystem holding one three-byte file at `o/r/abc`. -/
def fsABC : FS := fun p => if p = "o/r/abc" then some [1, 2, 3] else none

/-- A filesystem holding one file at `o/r/!!!`, a path whose fileID does
not parse as a hash. -/
def fsBang : FS := fun p => if p = "o/r/!!!" then some [7] else none

/-- The empty admission registry. -/
def regEmpty : Registry := fun _ => none

/-- A registry expecting for `h32` a file of length 2 with checksum
`md5c [5, 5] = [2]`. -/
def regLen2 : Registry := fun s => if s = h32 then some ⟨2, [2]⟩ else none

/-- A registry expecting for `h32` a file of length 3 with no checksum. -/
def regLen3 : Registry := fun s => if s = h32 then some ⟨3, []⟩ else none

/-- A registry with an unchecked manifest (length 0, empty hash) for
`h32`. -/
def regFree : Registry := fun s => if s = h32 then some ⟨0, []⟩ else none

/-! Helper lemmas. -/

/-- A successful `strconv.ParseUint(s, 10, 64)` yields a value below
2 ^ 64. -/
theorem parseUint64_lt_bound (s : String) (n : Nat)
    (h : parseUint64 s = some n) : n < uint64Bound := by
  unfold parseUint64 at h
  by_cases h1 : s.data.isEmpty <;> simp [h1] at h
  exact h.2.2 ▸ h.2.1

/-- The wrapped `uint64` difference `end - start`, reinterpreted as
`int64`, is the negative true difference when `end < start` and the gap
is at most 2 ^ 63. -/
theorem toInt64_wrap_of_lt (s e : Nat) (hs : s < uint64Bound)
    (he : e < uint64Bound) (hlt : e < s) (hb : s - e ≤ int64Bound) :
    toInt64 ((e + uint64Bound - s) % uint64Bound) = (e : Int) - s := by
  have hmod : (e + uint64Bound - s) % uint64Bound = e + uint64Bound - s := by
    unfold uint64Bound at *; omega
  unfold toInt64
  rw [hmod, if_neg (by unfold uint64Bound int64Bound at *; omega)]
  unfold uint64Bound at *
  omega

/-- An upload whose fileID parses, is registered, and whose body passes
the length and checksum gates persists the body at the resolved storage
key and returns OK. -/
theorem writeTableFile_success (md5Sum : Bytes → Bytes) (registry : Registry)
    (fs : FS) (org repo fileId : String) (body : Bytes)
    (tfd : TableFileDetails) (hreg : registry fileId = some tfd)
    (hhash : hashMaybeParse fileId = true)
    (hlen : tfd.contentLength = 0 ∨ tfd.contentLength = body.length)
    (hsum : tfd.contentHash = [] ∨ tfd.contentHash = md5Sum body) :
    writeTableFile md5Sum registry fs org repo fileId body false false =
      (statusOK, fsUpdate fs (resolvePath org repo fileId) body) := by
  have h1 : ¬(tfd.contentLength ≠ 0 ∧ tfd.contentLength ≠ body.length) := by
    tauto
  have h2 : ¬(tfd.contentHash.length > 0 ∧ tfd.contentHash ≠ md5Sum body) := by
    rcases hsum with h | h <;> simp [h]
  simp [writeTableFile, hreg, hhash, h1, h2, writeLocal]

/-! Claim theorems. -/

/-- Claim C1: the spec says a path that does not split into exactly three
segments is rejected as not-found as the single terminal outcome, with
no filesystem access and no method dispatch.  The code writes the
not-found header but is missing the early return: a four-segment GET
goes on to dispatch and streams the stored file after the 404 header,
and a two-segment path panics indexing the third token.  This theorem
evaluates the handler at both failing inputs. -/
theorem c1_token_count_mismatch_still_dispatches :
    ServeHTTP md5c regEmpty fsABC false false false
      ⟨"GET", "/o/r/abc/x", "", [], false⟩ = .completed [404] [1, 2, 3] fsABC ∧
    ServeHTTP md5c regEmpty fsABC false false false
      ⟨"GET", "/o/r", "", [], false⟩ = .panicked [404] :=
  ⟨rfl, rfl⟩

/-- Claim C2, counterexample: a GET whose fileID does not parse as a hash
is not short-circuited: `readFile` performs no hash validation, resolves
the path, reads the stored file from the filesystem and streams it
(returning the `-1` streamed sentinel, not a definitive status code). -/
theorem c2_get_unparsable_hash_reads_file :
    hashMaybeParse "!!!" = false ∧
    readFile fsBang false "o" "r" "!!!" = (noStatus, [7]) :=
  ⟨by decide, rfl⟩

/-- Claim C2 as amended: only the write path short-circuits on an
unparsable fileID (bad-request, before any filesystem access, state
unchanged); the read path performs no hash validation and proceeds to
path resolution and filesystem access, streaming the stored file when
present. -/
theorem c2_amended_hash_gate_is_write_only (md5Sum : Bytes → Bytes)
    (registry : Registry) (fs : FS) (org repo fileId : String)
    (body data : Bytes) (readErr writeErr : Bool)
    (hbad : hashMaybeParse fileId = false)
    (hfile : fs (resolvePath org repo fileId) = some data) :
    writeTableFile md5Sum registry fs org repo fileId body readErr writeErr =
      (statusBadRequest, fs) ∧
    readFile fs false org repo fileId = (noStatus, data) := by
  constructor
  · simp [writeTableFile, hbad]
  · simp [readFile, hfile]

/-- Witness for the amended C2 at a concrete unparsable fileID. -/
theorem c2_amended_hash_gate_is_write_only_witness :
    hashMaybeParse "!!!" = false ∧
    fsBang (resolvePath "o" "r" "!!!") = some [7] ∧
    (writeTableFile md5c regEmpty fsBang "o" "r" "!!!" [1] false false =
      (statusBadRequest, fsBang) ∧
     readFile fsBang false "o" "r" "!!!" = (noStatus, [7])) :=
  ⟨by decide, by decide,
    c2_amended_hash_gate_is_write_only md5c regEmpty fsBang "o" "r" "!!!" [1] [7]
      false false (by decide) (by decide)⟩

/-- Claim C3: with a manifest registered for the fileID, a nonzero
expected length differing from the body length is rejected as
bad-request with the filesystem unchanged; a nonempty expected hash
differing from the body checksum likewise; and an upload passing both
gates (with no read or write fault) is accepted with OK and persisted
at the resolved storage key. -/
theorem c3_length_and_checksum_admission_gate (md5Sum : Bytes → Bytes)
    (registry : Registry) (fs : FS) (org repo fileId : String)
    (body : Bytes) (readErr writeErr : Bool)
    (tfd : TableFileDetails) (hreg : registry fileId = some tfd) :
    ((tfd.contentLength ≠ 0 ∧ tfd.contentLength ≠ body.length) →
      writeTableFile md5Sum registry fs org repo fileId body readErr writeErr =
        (statusBadRequest, fs)) ∧
    ((tfd.contentHash ≠ [] ∧ tfd.contentHash ≠ md5Sum body) →
      writeTableFile md5Sum registry fs org repo fileId body readErr writeErr =
        (statusBadRequest, fs)) ∧
    (hashMaybeParse fileId = true →
      (tfd.contentLength = 0 ∨ tfd.contentLength = body.length) →
      (tfd.contentHash = [] ∨ tfd.contentHash = md5Sum body) →
      writeTableFile md5Sum registry fs org repo fileId body false false =
        (statusOK, fsUpdate fs (resolvePath org repo fileId) body)) := by
  refine ⟨fun h => ?_, fun h => ?_, fun hhash hlen hsum => ?_⟩
  · by_cases hp : hashMaybeParse fileId = false <;>
      simp [writeTableFile, hreg, hp, h.1, h.2]
  · by_cases hp : hashMaybeParse fileId = false
    · simp [writeTableFile, hp]
    · by_cases hl : tfd.contentLength ≠ 0 ∧ tfd.contentLength ≠ body.length <;>
        · have hne : tfd.contentHash.length > 0 := by
            cases htfd : tfd.contentHash with
            | nil => exact absurd htfd h.1
            | cons c cs => simp [htfd]
          simp [writeTableFile, hreg, hp, hl, hne, h.2]
  · exact writeTableFile_success md5Sum registry fs org repo fileId body tfd
      hreg hhash hlen hsum

/-- Witness for C3: the registered manifest expects 2 bytes with checksum
`[2]`; the matching body `[5, 5]` is accepted and persisted. -/
theorem c3_length_and_checksum_admission_gate_witness :
    regLen2 h32 = some (TableFileDetails.mk 2 [2]) ∧
    hashMaybeParse h32 = true ∧
    writeTableFile md5c regLen2 fsEmpty "o" "r" h32 [5, 5] false false =
      (statusOK, fsUpdate fsEmpty (resolvePath "o" "r" h32) [5, 5]) :=
  ⟨by decide, by decide,
    (c3_length_and_checksum_admission_gate md5c regLen2 fsEmpty "o" "r" h32
      [5, 5] false false (TableFileDetails.mk 2 [2]) (by decide)).2.2
      (by decide) (Or.inr rfl) (Or.inr rfl)⟩

/-- Claim C4: an upload whose fileID has no entry in the admission
registry returns bad-request and leaves the filesystem unchanged,
whether or not the fileID parses as a hash. -/
theorem c4_unregistered_upload_rejected (md5Sum : Bytes → Bytes)
    (registry : Registry) (fs : FS) (org repo fileId : String)
    (body : Bytes) (readErr writeErr : Bool)
    (hnone : registry fileId = none) :
    writeTableFile md5Sum registry fs org repo fileId body readErr writeErr =
      (statusBadRequest, fs) := by
  by_cases hp : hashMaybeParse fileId = false <;>
    simp [writeTableFile, hnone, hp]

/-- Witness for C4: the empty registry rejects an upload for a
well-formed fileID and the filesystem stays empty. -/
theorem c4_unregistered_upload_rejected_witness :
    regEmpty h32 = none ∧
    writeTableFile md5c regEmpty fsEmpty "o" "r" h32 [1, 2] false false =
      (statusBadRequest, fsEmpty) :=
  ⟨rfl, c4_unregistered_upload_rejected md5c regEmpty fsEmpty "o" "r" h32 [1, 2]
    false false rfl⟩

/-- Claim C5: for a stored file and a `Range` header parsing as the
inclusive range `a..b` with `a ≤ b < fileSize`, the ranged GET streams
exactly `b - a + 1` bytes and they are precisely the stored bytes at
positions `a` through `b`. -/
theorem c5_ranged_get_returns_exact_slice (fs : FS)
    (org repo fileId rngStr : String) (data : Bytes) (a b : Nat)
    (hfile : fs (resolvePath org repo fileId) = some data)
    (hparse : offsetAndLenFromRange rngStr = .ok ((a : Int), (b : Int) - a + 1))
    (hab : a ≤ b) (hsize : b < data.length) :
    readChunk fs false false org repo fileId rngStr =
      (noStatus, (data.drop a).take (b - a + 1)) ∧
    ((data.drop a).take (b - a + 1)).length = b - a + 1 := by
  have hnotlt : ¬((data.length : Int) < wrapInt64 ((a : Int) + ((b : Int) - a + 1))) := by
    unfold wrapInt64 uint64Bound int64Bound
    omega
  have htol : ((b : Int) - a + 1).toNat = b - a + 1 := by omega
  have hrange : readLocalRange fs false false org repo fileId (a : Int)
      ((b : Int) - a + 1) = ((data.drop a).take (b - a + 1), noStatus) := by
    simp [readLocalRange, hfile, hnotlt, htol]
    rintro (h | h) <;> exfalso <;> omega
  simp [readChunk, hparse, hrange]
  omega

/-- Witness for C5: range `bytes=1-2` on the stored file `[1, 2, 3]`
returns the two bytes `[2, 3]`. -/
theorem c5_ranged_get_returns_exact_slice_witness :
    fsABC (resolvePath "o" "r" "abc") = some [1, 2, 3] ∧
    offsetAndLenFromRange "bytes=1-2" = .ok ((1 : Int), (2 : Int) - 1 + 1) ∧
    (readChunk fsABC false false "o" "r" "abc" "bytes=1-2" =
      (noStatus, (([1, 2, 3] : Bytes).drop 1).take (2 - 1 + 1)) ∧
     ((([1, 2, 3] : Bytes).drop 1).take (2 - 1 + 1)).length = 2 - 1 + 1) :=
  ⟨by decide, rfl,
    c5_ranged_get_returns_exact_slice fsABC "o" "r" "abc" "bytes=1-2"
      [1, 2, 3] 1 2 (by decide) rfl (by decide) (by decide)⟩

/-- Claim C6: an upload admitted by the gates (registered manifest,
matching length and checksum, no read or write fault) followed by a
whole-file GET of the same `(org, repo, fileID)` key reproduces exactly
the uploaded bytes. -/
theorem c6_upload_then_get_roundtrip (md5Sum : Bytes → Bytes)
    (registry : Registry) (fs : FS) (org repo fileId : String)
    (body : Bytes) (tfd : TableFileDetails)
    (hreg : registry fileId = some tfd)
    (hhash : hashMaybeParse fileId = true)
    (hlen : tfd.contentLength = 0 ∨ tfd.contentLength = body.length)
    (hsum : tfd.contentHash = [] ∨ tfd.contentHash = md5Sum body) :
    (writeTableFile md5Sum registry fs org repo fileId body false false).1 =
      statusOK ∧
    readFile (writeTableFile md5Sum registry fs org repo fileId body false false).2
      false org repo fileId = (noStatus, body) := by
  rw [writeTableFile_success md5Sum registry fs org repo fileId body tfd
    hreg hhash hlen hsum]
  exact ⟨rfl, by simp [readFile, fsUpdate]⟩

/-- Witness for C6: an unchecked manifest admits body `[4, 5]`, and the
whole-file GET after the upload returns exactly `[4, 5]`. -/
theorem c6_upload_then_get_roundtrip_witness :
    regFree h32 = some (TableFileDetails.mk 0 []) ∧
    hashMaybeParse h32 = true ∧
    ((writeTableFile md5c regFree fsEmpty "o" "r" h32 [4, 5] false false).1 =
      statusOK ∧
     readFile (writeTableFile md5c regFree fsEmpty "o" "r" h32 [4, 5] false false).2
      false "o" "r" h32 = (noStatus, [4, 5])) :=
  ⟨by decide, by decide,
    c6_upload_then_get_roundtrip md5c regFree fsEmpty "o" "r" h32 [4, 5]
      (TableFileDetails.mk 0 []) (by decide) (by decide) (Or.inl rfl) (Or.inl rfl)⟩

/-- Claim C7, counterexample: the range
`bytes=9223372036854775807-9223372036854775808` parses to offset
`2^63 - 1` and length `2`, so `offset + length` exceeds the three-byte
stored file's size; but the source computes `int64(offset+length)`,
which wraps negative, so the size check is bypassed and the read
proceeds past open and seek, failing as internal-error (500) — not the
claimed bad-request decided before any bytes are read. -/
theorem c7_int64_overflow_bypasses_size_check :
    offsetAndLenFromRange "bytes=9223372036854775807-9223372036854775808" =
      .ok (9223372036854775807, 2) ∧
    readChunk fsABC false false "o" "r" "abc"
      "bytes=9223372036854775807-9223372036854775808" =
      (statusInternalServerError, []) :=
  ⟨rfl, rfl⟩

/-- Claim C7 as amended: for ranges whose `int64` sum `offset + length`
does not overflow (`b + 1 < 2^63`), a ranged read whose
`offset + length` exceeds the stored file's size — equivalently
`b ≥ fileSize` — is rejected as bad-request by the size check that
precedes opening and reading the file, and the ranged GET emits no
bytes; at the overflow point the check is bypassed and the read fails
later as internal-error. -/
theorem c7_amended_unsatisfiable_range_rejected (fs : FS) (oe se : Bool)
    (org repo fileId rngStr : String) (data : Bytes) (a b : Nat)
    (hfile : fs (resolvePath org repo fileId) = some data)
    (hparse : offsetAndLenFromRange rngStr = .ok ((a : Int), (b : Int) - a + 1))
    (hsize : data.length ≤ b) (hnoov : b + 1 < int64Bound) :
    readLocalRange fs oe se org repo fileId (a : Int) ((b : Int) - a + 1) =
      ([], statusBadRequest) ∧
    readChunk fs oe se org repo fileId rngStr = (statusBadRequest, []) := by
  have hwrap : wrapInt64 ((a : Int) + ((b : Int) - a + 1)) = (b : Int) + 1 := by
    unfold wrapInt64 uint64Bound int64Bound at *
    omega
  have hlt : (data.length : Int) < wrapInt64 ((a : Int) + ((b : Int) - a + 1)) := by
    rw [hwrap]; omega
  have hrange : readLocalRange fs oe se org repo fileId (a : Int)
      ((b : Int) - a + 1) = ([], statusBadRequest) := by
    simp [readLocalRange, hfile, hlt]
  exact ⟨hrange, by simp [readChunk, hparse, hrange, statusBadRequest, noStatus]⟩

/-- Witness for the amended C7: range `bytes=5-9` on the three-byte
stored file `[1, 2, 3]` yields bad-request with no bytes emitted. -/
theorem c7_amended_unsatisfiable_range_rejected_witness :
    fsABC (resolvePath "o" "r" "abc") = some [1, 2, 3] ∧
    offsetAndLenFromRange "bytes=5-9" = .ok ((5 : Int), (9 : Int) - 5 + 1) ∧
    (readLocalRange fsABC false false "o" "r" "abc" (5 : Int)
      ((9 : Int) - 5 + 1) = ([], statusBadRequest) ∧
     readChunk fsABC false false "o" "r" "abc" "bytes=5-9" =
      (statusBadRequest, [])) :=
  ⟨by decide, rfl,
    c7_amended_unsatisfiable_range_rejected fsABC false false "o" "r" "abc"
      "bytes=5-9" [1, 2, 3] 5 9 (by decide) rfl (by decide) (by decide)⟩

/-- Claim C8, counterexample: the range `bytes=5-0` has both components
numeric with `end < start`, yet the parser returns success, not a parse
error: offset 5 and length `int64(0 - 5) + 1 = -4` via unsigned
wraparound. -/
theorem c8_end_before_start_is_not_a_parse_error :
    offsetAndLenFromRange "bytes=5-0" = .ok (5, -4) :=
  rfl

/-- Claim C8 as amended: the parser performs no `end >= start` check;
when both components parse as uint64 with `end < start` (gap at most
2 ^ 63) it succeeds, returning offset `int64(start)` and the
non-positive length `end - start + 1` computed by unsigned-wraparound
subtraction reinterpreted as int64. -/
theorem c8_amended_end_before_start_succeeds (rngStr t1 t2 : String)
    (s e : Nat)
    (hpre : goStartsWith rngStr "bytes=" = true)
    (hsplit : goSplit ((rngStr.data.drop 6).asString) '-' = [t1, t2])
    (hs : parseUint64 (goTrim t1) = some s)
    (he : parseUint64 (goTrim t2) = some e)
    (hlt : e < s) (hbound : s - e ≤ int64Bound) :
    offsetAndLenFromRange rngStr = .ok (toInt64 s, (e : Int) - s + 1) ∧
    (e : Int) - s + 1 ≤ 0 := by
  have hne : rngStr ≠ "" := by
    intro hcon; rw [hcon] at hpre; exact absurd hpre (by decide)
  have hwrap := toInt64_wrap_of_lt s e (parseUint64_lt_bound _ _ hs)
    (parseUint64_lt_bound _ _ he) hlt hbound
  constructor
  · simp [offsetAndLenFromRange, hne, hpre, hsplit, hs, he, hwrap]
  · omega

/-- Witness for the amended C8 at `bytes=5-0`. -/
theorem c8_amended_end_before_start_succeeds_witness :
    offsetAndLenFromRange "bytes=5-0" = .ok (toInt64 5, (0 : Int) - 5 + 1) ∧
    (0 : Int) - 5 + 1 ≤ 0 :=
  c8_amended_end_before_start_succeeds "bytes=5-0" "5" "0" 5 0 (by decide)
    (by decide) (by decide) (by decide) (by decide) (by decide)

/-- Claim C9: the source checks the manifest length and checksum before
checking the `io.ReadAll` error, so a failed body read whose truncated
prefix fails the length check is reported as bad-request (an admission
rejection computed over the truncated prefix), not as internal-error.
Here the registry expects 3 bytes, the read fails after 1 byte, and the
outcome is 400. -/
theorem c9_failed_read_judged_as_admission_failure :
    writeTableFile md5c regLen3 fsEmpty "o" "r" h32 [9] true false =
      (statusBadRequest, fsEmpty) :=
  rfl

/-- Claim C10: the storage path resolver joins the three path segments
verbatim with no sanitization; with organization and repository both
`..` the resolved path is `../../<hash>`, whose cleaned form still
begins with `..` and hence lies outside the store root, and both the
write path and the read path operate on that escaped location. -/
theorem c10_dotdot_segments_escape_store_root :
    escapesRoot ".." ".." h32 = true ∧
    resolvePath ".." ".." h32 = "../../" ++ h32 ∧
    readFile (writeLocal fsEmpty ".." ".." h32 [5] false).1 false ".." ".." h32 =
      (noStatus, [5]) :=
  ⟨by decide, by decide, rfl⟩

end RemoteSrv
